import Mathlib

/-!
# Verification of the COVID-19 daily-data notebook pipeline

Shallow embedding of the data-processing pipeline of `notebook.py`:
cleaning (drop columns, parse `YYYYMMDD` dates, derive `"%b %d"` labels,
sort by date, fill missing numerics with 0), the back-extrapolation
estimator (`death / 0.0066`, `death / 0.0138`, date shifted by -14 days)
and the differencing step (`estimates.infected - data.positive`, which is
a pandas index-aligned subtraction).

Numeric fields are modelled with `ℚ` (exact arithmetic in place of IEEE
floats); a missing value (`null`/NaN) is `Option.none`.  Calendar dates
follow CPython's `datetime.date`: a (year, month, day) triple together
with the proleptic-Gregorian ordinal maps `toOrd` (CPython `_ymd2ord`)
and `fromOrd` (CPython `_ord2ymd`), since `date + timedelta(days = k)`
is computed by CPython as `fromordinal(toordinal(d) + k)` with an
`OverflowError` outside `[1, 3652059]`.
-/

/-- A calendar date, as CPython's `datetime.date` triple. -/
structure Date where
  year : Nat
  month : Nat
  day : Nat
deriving DecidableEq, Repr

/-- CPython `_is_leap`: Gregorian leap-year test. -/
def isLeap (y : Nat) : Bool :=
  (y % 4 = 0 && y % 100 ≠ 0) || y % 400 = 0

/-- CPython `_DAYS_IN_MONTH` lookup, with the leap flag supplied directly. -/
def daysInMonthL (m : Nat) (leap : Bool) : Nat :=
  if m = 2 then (if leap then 29 else 28)
  else if m = 4 ∨ m = 6 ∨ m = 9 ∨ m = 11 then 30
  else 31

/-- CPython `_days_in_month`. -/
def daysInMonth (y m : Nat) : Nat := daysInMonthL m (isLeap y)

/-- CPython `_DAYS_BEFORE_MONTH` lookup: days in the year strictly before
month `m`, ignoring leap days. -/
def daysBeforeMonth (m : Nat) : Nat :=
  if m = 1 then 0 else if m = 2 then 31 else if m = 3 then 59
  else if m = 4 then 90 else if m = 5 then 120 else if m = 6 then 151
  else if m = 7 then 181 else if m = 8 then 212 else if m = 9 then 243
  else if m = 10 then 273 else if m = 11 then 304 else 334

/-- CPython `_days_before_year y = (y-1)*365 + (y-1)//4 - (y-1)//100 + (y-1)//400`. -/
def daysBeforeYear (y : Nat) : Nat :=
  (y - 1) * 365 + (y - 1) / 4 - (y - 1) / 100 + (y - 1) / 400

/-- CPython `date.toordinal` (`_ymd2ord`): day number in the proleptic
Gregorian calendar, with day 1 = 0001-01-01. -/
def toOrd (d : Date) : Nat :=
  daysBeforeYear d.year + daysBeforeMonth d.month
    + (if 2 < d.month ∧ isLeap d.year then 1 else 0) + d.day

/-- The month/day part of CPython `_ord2ymd`: from a 0-based day of year
`r4` (within a year whose leap flag is `leap`, and that is not the last
day of a leap year) compute the month by the `(n + 50) >> 5` estimate and
correct it downward by one when the estimate overshoots. -/
def dayOfYearToMD (r4 : Nat) (leap : Bool) : Nat × Nat :=
  let m0 := (r4 + 50) / 32
  let preceding := daysBeforeMonth m0 + (if 2 < m0 ∧ leap then 1 else 0)
  if r4 < preceding then
    let m := m0 - 1
    let preceding2 := preceding - daysInMonthL m leap
    (m, r4 - preceding2 + 1)
  else
    (m0, r4 - preceding + 1)

/-- CPython `date.fromordinal` (`_ord2ymd`): inverse of `toOrd`, via the
400-year / 100-year / 4-year / 1-year cycle decomposition. -/
def fromOrd (n : Nat) : Date :=
  let n0 := n - 1
  let n400 := n0 / 146097
  let r1 := n0 % 146097
  let n100 := r1 / 36524
  let r2 := r1 % 36524
  let n4 := r2 / 1461
  let r3 := r2 % 1461
  let n1 := r3 / 365
  let r4 := r3 % 365
  let year := 400 * n400 + 100 * n100 + 4 * n4 + n1 + 1
  if n1 = 4 ∨ n100 = 4 then
    ⟨year - 1, 12, 31⟩
  else
    let leap := n1 = 3 && (n4 ≠ 24 || n100 = 3)
    let md := dayOfYearToMD r4 leap
    ⟨year, md.1, md.2⟩

/-- Validity of a `Date` as enforced by the CPython `datetime.date`
constructor (`MINYEAR = 1`, `MAXYEAR = 9999`). -/
def validDate (d : Date) : Prop :=
  1 ≤ d.year ∧ d.year ≤ 9999 ∧ 1 ≤ d.month ∧ d.month ≤ 12
    ∧ 1 ≤ d.day ∧ d.day ≤ daysInMonth d.year d.month

instance (d : Date) : Decidable (validDate d) := by
  unfold validDate; infer_instance

/-- CPython `date.__le__`: dates compare lexicographically on
(year, month, day); this is the order `sort_values('date')` sorts by. -/
def dateLE (a b : Date) : Prop :=
  a.year < b.year ∨ (a.year = b.year ∧ (a.month < b.month
    ∨ (a.month = b.month ∧ a.day ≤ b.day)))

instance : DecidableRel dateLE := by
  unfold dateLE; infer_instance

/-- CPython `date.__add__` with a `timedelta` of `k` days: go through the
ordinal, raising `OverflowError` (here `none`) outside `[1, _MAXORDINAL]`
where `_MAXORDINAL = 3652059`. -/
def addDays (d : Date) (k : Int) : Option Date :=
  let n : Int := (toOrd d : Int) + k
  if 1 ≤ n ∧ n ≤ 3652059 then some (fromOrd n.toNat) else none

/-! ## `strptime("%Y%m%d")`

CPython `_strptime` compiles the format to the regex
`(?P<Y>\d\d\d\d)(?P<m>1[0-2]|0[1-9]|[1-9])(?P<d>3[01]|[12]\d|0[1-9]|[1-9])`,
matches it at the start of the string (first match in backtracking order),
raises `ValueError` when there is no match or when characters remain
unconverted, and finally the `datetime` constructor validates the fields.
Digit-class conditions are expressed numerically on the character code:
for a character `c`, `isDig c && dv c = k` holds exactly when `c` is the
digit `k`. -/

/-- Numeric value of a (digit) character: code point minus 48. -/
def dv (c : Char) : Nat := c.toNat - 48

/-- The regex class `\d`. -/
def isDig (c : Char) : Bool := 48 ≤ c.toNat && c.toNat ≤ 57

/-- The month alternatives `1[0-2]|0[1-9]` (the two-character ones). -/
def month2 (a b : Char) : Option Nat :=
  if isDig a && isDig b then
    if dv a = 1 && dv b ≤ 2 then some (10 + dv b)
    else if dv a = 0 && 1 ≤ dv b then some (dv b)
    else none
  else none

/-- The single-character month alternative `[1-9]`. -/
def month1 (a : Char) : Option Nat :=
  if isDig a && 1 ≤ dv a then some (dv a) else none

/-- The day alternatives `3[01]|[12]\d|0[1-9]` (the two-character ones). -/
def day2 (a b : Char) : Option Nat :=
  if isDig a && isDig b then
    if dv a = 3 && dv b ≤ 1 then some (30 + dv b)
    else if 1 ≤ dv a && dv a ≤ 2 then some (10 * dv a + dv b)
    else if dv a = 0 && 1 ≤ dv b then some (dv b)
    else none
  else none

/-- The day field, which must consume the whole remaining input (a partial
regex match leaves "unconverted data" and raises `ValueError`). -/
def dayAll : List Char → Option Nat
  | [a] => month1 a
  | [a, b] => day2 a b
  | _ => none

/-- Month then day with the regex engine's backtracking order: the
two-character month alternatives are tried before the one-character one. -/
def monthDay : List Char → Option (Nat × Nat)
  | a :: b :: rest =>
    (match month2 a b with
     | some m =>
       match dayAll rest with
       | some d => some (m, d)
       | none =>
         match month1 a with
         | some m1 =>
           match dayAll (b :: rest) with
           | some d => some (m1, d)
           | none => none
         | none => none
     | none =>
       match month1 a with
       | some m1 =>
         match dayAll (b :: rest) with
         | some d => some (m1, d)
         | none => none
       | none => none)
  | [a] =>
    (match month1 a with
     | some _ => none   -- nothing left for the day field: no match
     | none => none)
  | [] => none

/-- `datetime.strptime(s, "%Y%m%d")` followed by the `datetime` field
validation, returning the parsed date (`none` = `ValueError`). -/
def parseDate (s : String) : Option Date :=
  match s.data with
  | c1 :: c2 :: c3 :: c4 :: rest =>
    if isDig c1 && isDig c2 && isDig c3 && isDig c4 then
      let y := 1000 * dv c1 + 100 * dv c2 + 10 * dv c3 + dv c4
      match monthDay rest with
      | some md =>
        if validDate ⟨y, md.1, md.2⟩ then some ⟨y, md.1, md.2⟩ else none
      | none => none
    else none
  | _ => none

/-! ## Day labels: `strftime("%b %d")` -/

/-- C-locale month abbreviation (`%b`). -/
def monthAbbrev (m : Nat) : String :=
  if m = 1 then "Jan" else if m = 2 then "Feb" else if m = 3 then "Mar"
  else if m = 4 then "Apr" else if m = 5 then "May" else if m = 6 then "Jun"
  else if m = 7 then "Jul" else if m = 8 then "Aug" else if m = 9 then "Sep"
  else if m = 10 then "Oct" else if m = 11 then "Nov" else "Dec"

/-- `%d`: zero-padded two-digit day of month. -/
def pad2 (n : Nat) : String :=
  String.mk [Char.ofNat (48 + n / 10), Char.ofNat (48 + n % 10)]

/-- `strftime("%b %d")` on the month/day pair. -/
def fmtMD (m d : Nat) : String :=
  monthAbbrev m ++ String.mk [Char.ofNat 32] ++ pad2 d

/-- `d.strftime("%b %d")`, the notebook's day label. -/
def fmtDay (d : Date) : String := fmtMD d.month d.day

/-! ## Data model and the cleaning pipeline -/

/-- One raw record of the feed, after the `astype(str)` rendering of its
`date` field (in the feed the field is the numeral `YYYYMMDD`).  `positive`
and `death` are `none` when the JSON value is `null` (pandas NaN); the
values of the `hash` / `dateChecked` provenance columns are irrelevant to
the pipeline, only their presence at frame level matters. -/
structure RawRow where
  date : String
  positive : Option ℚ
  death : Option ℚ
deriving DecidableEq, Repr

/-- A raw data frame: which provenance columns are present, plus the rows.
`df.drop(['hash','dateChecked'], axis=1)` raises `KeyError` when either
column is absent. -/
structure RawFrame where
  hasHash : Bool
  hasDateChecked : Bool
  rows : List RawRow
deriving DecidableEq, Repr

/-- Errors of the cleaning cell: `KeyError` from `drop`, `ValueError`
(`DateFormatError` in the spec's taxonomy) from `strptime`. -/
inductive CleanError where
  | keyError
  | dateFormatError
deriving DecidableEq, Repr

/-- A cleaned daily record: parsed date (the frame index), derived label,
and the NA-filled numeric fields. -/
structure DailyRecord where
  date : Date
  day : String
  positive : ℚ
  death : ℚ
deriving DecidableEq, Repr

/-- `data.date.apply(dt.datetime.strptime, args=["%Y%m%d"])`: parse every
row's date, failing on the first `ValueError`. -/
def parseRows : List RawRow → Option (List (Date × RawRow))
  | [] => some []
  | row :: rest =>
    match parseDate row.date with
    | none => none
    | some d =>
      match parseRows rest with
      | none => none
      | some l => some ((d, row) :: l)

/-- Build one cleaned record from a parsed row: derive the `day` label
(`strftime("%b %d")`) and apply `fillna(0)` to the numeric fields. -/
def mkRecord (p : Date × RawRow) : DailyRecord :=
  ⟨p.1, fmtDay p.1, p.2.positive.getD 0, p.2.death.getD 0⟩

/-- The sort key of `data.sort_values('date')`. -/
def recLE (a b : DailyRecord) : Prop := dateLE a.date b.date

instance : DecidableRel recLE := by
  unfold recLE; infer_instance

/-- The cleaning cell of the notebook: drop `hash`/`dateChecked`, parse
dates, derive day labels, sort by date, index by date, fill NA with 0. -/
def clean (f : RawFrame) : Except CleanError (List DailyRecord) :=
  if f.hasHash && f.hasDateChecked then
    match parseRows f.rows with
    | none => Except.error CleanError.dateFormatError
    | some l => Except.ok (List.insertionSort recLE (l.map mkRecord))
  else Except.error CleanError.keyError

/-- How an already-cleaned table looks when re-presented to the cleaning
cell: the `hash`/`dateChecked` columns were dropped, and the date index
renders under `astype(str)` as ISO `YYYY-MM-DD`, not as `YYYYMMDD`. -/
def toRawFrame (l : List DailyRecord) : RawFrame :=
  ⟨false, false, l.map fun r =>
    ⟨toString r.date.year ++ "-" ++ pad2 r.date.month ++ "-" ++ pad2 r.date.day,
     some r.positive, some r.death⟩⟩

/-! ## The back-extrapolation estimator -/

/-- `delta = dt.timedelta(days = -14)`. -/
def delta : Int := -14

/-- `death_rate = .0066`. -/
def death_rate : ℚ := 0.0066

/-- `death_rate_s = .0138`. -/
def death_rate_s : ℚ := 0.0138

/-- One estimate row, as the dict built by `estimate`. -/
structure EstimateRecord where
  date : Date
  infected : ℚ
  symptomatic : ℚ
  day : String
deriving DecidableEq, Repr

/-- The notebook's `estimate(row)`: shift the record's date by `delta`
(CPython raises `OverflowError` when the shifted ordinal leaves the valid
range, hence the `Option`) and divide the death count by the two fixed
case-fatality ratios. -/
def estimate (r : DailyRecord) : Option EstimateRecord :=
  match addDays r.date delta with
  | none => none
  | some d => some ⟨d, r.death / death_rate, r.death / death_rate_s, fmtDay d⟩

/-- `estimates = data.apply(estimate, axis=1)`: elementwise over the
cleaned sequence, propagating any exception. -/
def estimatesOf (l : List DailyRecord) : Option (List EstimateRecord) :=
  l.mapM estimate

/-! ## The differencing step

`diff = estimates.infected - data.positive` is a pandas `Series`
subtraction: the two series are aligned on the union of their date
indexes, and a date missing from either side yields NaN (`none`). -/

/-- A date-indexed series of (non-NaN) rationals. -/
def keysOf (s : List (Date × ℚ)) : List Date := s.map Prod.fst

/-- Label lookup in a series (first occurrence). -/
def lookup {α : Type} : List (Date × α) → Date → Option α
  | [], _ => none
  | p :: rest, d => if p.1 = d then some p.2 else lookup rest d

/-- The union of the two date indexes, deduplicated and sorted, as pandas
alignment produces it. -/
def unionKeys (a b : List (Date × ℚ)) : List Date :=
  List.insertionSort dateLE (keysOf a ++ keysOf b).dedup

/-- Pandas `Series.__sub__`: index-aligned subtraction over the union of
the indexes; a label present on only one side gets value NaN (`none`). -/
def seriesSub (a b : List (Date × ℚ)) : List (Date × Option ℚ) :=
  (unionKeys a b).map fun d =>
    (d, match lookup a d, lookup b d with
        | some x, some y => some (x - y)
        | _, _ => none)

/-- The `infected` column of `estimates`, indexed by its (shifted) date. -/
def infectedSeries (l : List EstimateRecord) : List (Date × ℚ) :=
  l.map fun e => (e.date, e.infected)

/-- The `positive` column of `data`, indexed by date. -/
def positiveSeries (l : List DailyRecord) : List (Date × ℚ) :=
  l.map fun r => (r.date, r.positive)

/-- `diff = estimates.infected - data.positive`. -/
def diffOf (ests : List EstimateRecord) (recs : List DailyRecord) :
    List (Date × Option ℚ) :=
  seriesSub (infectedSeries ests) (positiveSeries recs)

/-! ## Calendar correctness -/

/-- Arithmetic characterisation of `isLeap`. -/
theorem isLeap_iff (y : Nat) :
    isLeap y = true ↔ ((y % 4 = 0 ∧ ¬ y % 100 = 0) ∨ y % 400 = 0) := by
  simp [isLeap]

/-- The month/day reconstruction of `_ord2ymd` is correct on every 0-based
day of year `r4 < 365`: the produced month/day land back on `r4`, and the
fields are in range. -/
theorem dayOfYearToMD_spec : ∀ r4 < 365, ∀ leap : Bool,
    daysBeforeMonth (dayOfYearToMD r4 leap).1
        + (if 2 < (dayOfYearToMD r4 leap).1 ∧ leap then 1 else 0)
        + (dayOfYearToMD r4 leap).2 = r4 + 1
      ∧ 1 ≤ (dayOfYearToMD r4 leap).1 ∧ (dayOfYearToMD r4 leap).1 ≤ 12
      ∧ 1 ≤ (dayOfYearToMD r4 leap).2
      ∧ (dayOfYearToMD r4 leap).2 ≤ daysInMonthL (dayOfYearToMD r4 leap).1 leap := by
  set_option maxRecDepth 4000 in decide

/-- `daysBeforeYear` on a year decomposed into 400/100/4/1-year cycles. -/
theorem dby_decomp (a b c e : Nat) (hb : b ≤ 3) (hc : c ≤ 24) (he : e ≤ 3) :
    daysBeforeYear (400*a + 100*b + 4*c + e + 1)
      = 146097*a + 36524*b + 1461*c + 365*e := by
  unfold daysBeforeYear
  have h0 : 400*a + 100*b + 4*c + e + 1 - 1 = 400*a + 100*b + 4*c + e := by omega
  rw [h0]
  have e4 : (400*a + 100*b + 4*c + e) / 4 = 100*a + 25*b + c := by
    rw [show 400*a + 100*b + 4*c + e = 4*(100*a + 25*b + c) + e by ring]
    rw [Nat.mul_add_div (by norm_num)]
    omega
  have e100 : (400*a + 100*b + 4*c + e) / 100 = 4*a + b := by
    rw [show 400*a + 100*b + 4*c + e = 100*(4*a + b) + (4*c + e) by ring]
    rw [Nat.mul_add_div (by norm_num)]
    omega
  have e400 : (400*a + 100*b + 4*c + e) / 400 = a := by
    rw [show 400*a + 100*b + 4*c + e = 400*a + (100*b + 4*c + e) by ring]
    rw [Nat.mul_add_div (by norm_num)]
    omega
  rw [e4, e100, e400]
  omega

/-- Residues of a cycle-decomposed year modulo 4, 100 and 400. -/
theorem mod_decomp (a b c e : Nat) :
    (400*a + 100*b + 4*c + e + 1) % 4 = (e + 1) % 4
    ∧ (400*a + 100*b + 4*c + e + 1) % 100 = (4*c + e + 1) % 100
    ∧ (400*a + 100*b + 4*c + e + 1) % 400 = (100*b + 4*c + e + 1) % 400 := by
  refine ⟨?_, ?_, ?_⟩
  · rw [show 400*a + 100*b + 4*c + e + 1 = (e+1) + 4*(100*a + 25*b + c) by ring]
    rw [Nat.add_mul_mod_self_left]
  · rw [show 400*a + 100*b + 4*c + e + 1 = (4*c + e + 1) + 100*(4*a + b) by ring]
    rw [Nat.add_mul_mod_self_left]
  · rw [show 400*a + 100*b + 4*c + e + 1 = (100*b + 4*c + e + 1) + 400*a by ring]
    rw [Nat.add_mul_mod_self_left]

/-- `_ord2ymd` is a right inverse of `_ymd2ord` on the ordinal range of
`datetime.date`, and it always produces a valid date there. -/
theorem toOrd_fromOrd (n : Nat) (h1 : 1 ≤ n) (h2 : n ≤ 3652059) :
    toOrd (fromOrd n) = n ∧ validDate (fromOrd n) := by
  unfold fromOrd
  dsimp only
  set n0 := n - 1 with hn0
  set q400 := n0 / 146097 with hq400
  set r1 := n0 % 146097 with hr1
  set q100 := r1 / 36524 with hq100
  set r2 := r1 % 36524 with hr2
  set q4 := r2 / 1461 with hq4
  set r3 := r2 % 1461 with hr3
  set q1 := r3 / 365 with hq1
  set r4 := r3 % 365 with hr4
  clear_value n0 q400 r1 q100 r2 q4 r3 q1 r4
  split
  case isTrue h =>
    rw [show (400*q400 + 100*q100 + 4*q4 + q1 + 1 - 1 : ℕ)
          = 400*q400 + 100*q100 + 4*q4 + q1 from by omega]
    rcases h with hA | hA
    · -- last day of a 4-year cycle (a leap year's Dec 31)
      have hc : q4 ≤ 23 := by omega
      rw [show (400*q400 + 100*q100 + 4*q4 + q1 : ℕ)
            = 400*q400 + 100*q100 + 4*q4 + 3 + 1 from by omega]
      have hl : isLeap (400*q400 + 100*q100 + 4*q4 + 3 + 1) = true := by
        rw [isLeap_iff]
        obtain ⟨m4, m100, m400⟩ := mod_decomp q400 q100 q4 3
        rw [m4, m100]
        left
        refine ⟨by norm_num, ?_⟩
        rw [Nat.mod_eq_of_lt (by omega)]
        omega
      constructor
      · unfold toOrd
        dsimp only
        rw [dby_decomp q400 q100 q4 3 (by omega) (by omega) (by omega)]
        rw [if_pos ⟨by norm_num, hl⟩, show daysBeforeMonth 12 = 334 from rfl]
        omega
      · unfold validDate daysInMonth daysInMonthL
        dsimp only
        refine ⟨by omega, by omega, by norm_num, by norm_num, by norm_num, by norm_num⟩
    · -- last day of a 400-year cycle (Dec 31 of a year divisible by 400)
      have hr : r1 = 146096 := by omega
      rw [show (400*q400 + 100*q100 + 4*q4 + q1 : ℕ)
            = 400*q400 + 100*3 + 4*24 + 3 + 1 from by omega]
      have hl : isLeap (400*q400 + 100*3 + 4*24 + 3 + 1) = true := by
        rw [isLeap_iff]
        right
        obtain ⟨m4, m100, m400⟩ := mod_decomp q400 3 24 3
        rw [m400]
      constructor
      · unfold toOrd
        dsimp only
        rw [dby_decomp q400 3 24 3 (by omega) (by omega) (by omega)]
        rw [if_pos ⟨by norm_num, hl⟩, show daysBeforeMonth 12 = 334 from rfl]
        omega
      · unfold validDate daysInMonth daysInMonthL
        dsimp only
        refine ⟨by omega, by omega, by norm_num, by norm_num, by norm_num, by norm_num⟩
  case isFalse h =>
    set L := (decide (q1 = 3) && (decide (q4 ≠ 24) || decide (q100 = 3))) with hLdef
    clear_value L
    have hq1le : q1 ≤ 3 := by omega
    have hq100le : q100 ≤ 3 := by omega
    have hq4le : q4 ≤ 24 := by omega
    have hr4lt : r4 < 365 := by omega
    obtain ⟨hsum, hm1, hm12, hd1, hdle⟩ := dayOfYearToMD_spec r4 hr4lt L
    have hleap : isLeap (400*q400 + 100*q100 + 4*q4 + q1 + 1) = L := by
      rw [Bool.eq_iff_iff, isLeap_iff, hLdef]
      simp only [Bool.and_eq_true, Bool.or_eq_true, decide_eq_true_eq, ne_eq]
      obtain ⟨m4, m100, m400⟩ := mod_decomp q400 q100 q4 q1
      rw [m4, m100, m400]
      omega
    obtain ⟨m, d, hmd⟩ : ∃ m d, dayOfYearToMD r4 L = (m, d) := ⟨_, _, rfl⟩
    rw [hmd] at hsum hm1 hm12 hd1 hdle ⊢
    dsimp only at hsum hm1 hm12 hd1 hdle ⊢
    constructor
    · unfold toOrd
      dsimp only
      rw [dby_decomp q400 q100 q4 q1 hq100le hq4le hq1le]
      simp only [hleap]
      by_cases hadj : 2 < m ∧ L = true
      · rw [if_pos hadj] at hsum ⊢
        omega
      · rw [if_neg hadj] at hsum ⊢
        omega
    · unfold validDate daysInMonth
      dsimp only
      rw [hleap]
      exact ⟨by omega, by omega, hm1, hm12, hd1, hdle⟩

/-! ## The parser on well-formed `YYYYMMDD` input -/

/-- The spec's input format, read off its words: an 8-digit numeral string
in `YYYYMMDD` form, i.e. the rendering of a valid calendar date. -/
def isYYYYMMDD (s : String) : Bool :=
  match s.data with
  | [a, b, c, e, f, g, i, j] =>
    isDig a && isDig b && isDig c && isDig e && isDig f && isDig g
      && isDig i && isDig j
      && decide (validDate ⟨1000 * dv a + 100 * dv b + 10 * dv c + dv e,
                            10 * dv f + dv g, 10 * dv i + dv j⟩)
  | _ => false

/-- The calendar date denoted by an 8-digit `YYYYMMDD` string. -/
def dateOfYYYYMMDD (s : String) : Date :=
  match s.data with
  | [a, b, c, e, f, g, i, j] =>
    ⟨1000 * dv a + 100 * dv b + 10 * dv c + dv e,
     10 * dv f + dv g, 10 * dv i + dv j⟩
  | _ => ⟨1, 1, 1⟩

/-- A digit character's value is at most 9. -/
theorem dv_le_nine {c : Char} (hc : isDig c = true) : dv c ≤ 9 := by
  unfold isDig at hc
  unfold dv
  simp only [Bool.and_eq_true, decide_eq_true_eq] at hc
  omega

/-- On a two-digit rendering of a month `1..12`, the regex month
alternatives `1[0-2]|0[1-9]` succeed with that month's value. -/
theorem month2_of_valid (a b : Char) (ha : isDig a = true) (hb : isDig b = true)
    (h1 : 1 ≤ 10 * dv a + dv b) (h2 : 10 * dv a + dv b ≤ 12) :
    month2 a b = some (10 * dv a + dv b) := by
  have hb9 := dv_le_nine hb
  unfold month2
  rw [ha, hb]
  simp only [Bool.and_self, if_true]
  split_ifs with hx hy
  · simp only [Bool.and_eq_true, decide_eq_true_eq] at hx
    simp only [Option.some.injEq]
    omega
  · simp only [Bool.and_eq_true, decide_eq_true_eq] at hy
    simp only [Option.some.injEq]
    omega
  · simp only [Bool.and_eq_true, decide_eq_true_eq, not_and] at hx hy
    exfalso
    omega

/-- On a two-digit rendering of a day `1..31`, the regex day alternatives
`3[01]|[12]\d|0[1-9]` succeed with that day's value. -/
theorem day2_of_valid (a b : Char) (ha : isDig a = true) (hb : isDig b = true)
    (h1 : 1 ≤ 10 * dv a + dv b) (h2 : 10 * dv a + dv b ≤ 31) :
    day2 a b = some (10 * dv a + dv b) := by
  have ha9 := dv_le_nine ha
  have hb9 := dv_le_nine hb
  unfold day2
  rw [ha, hb]
  simp only [Bool.and_self, if_true]
  split_ifs with hx hy hz
  · simp only [Bool.and_eq_true, decide_eq_true_eq] at hx
    simp only [Option.some.injEq]
    omega
  · simp only [Option.some.injEq]
  · simp only [Bool.and_eq_true, decide_eq_true_eq] at hz
    simp only [Option.some.injEq]
    omega
  · simp only [Bool.and_eq_true, decide_eq_true_eq, not_and] at hx hy hz
    exfalso
    omega

/-- Every maximal-month-in-range day is at most 31. -/
theorem daysInMonth_le_31 (y m : Nat) : daysInMonth y m ≤ 31 := by
  unfold daysInMonth daysInMonthL
  split_ifs <;> omega

/-- Any string matching the exact 8-digit `YYYYMMDD` pattern parses, and
to the calendar date it denotes. -/
theorem parseDate_of_isYYYYMMDD (s : String) (hs : isYYYYMMDD s = true) :
    parseDate s = some (dateOfYYYYMMDD s) := by
  unfold isYYYYMMDD at hs
  split at hs
  case h_2 => exact absurd hs (by simp)
  case h_1 a b c e f g i j heq =>
    simp only [Bool.and_eq_true, decide_eq_true_eq] at hs
    obtain ⟨⟨⟨⟨⟨⟨⟨⟨ha, hb⟩, hc⟩, he⟩, hf⟩, hg⟩, hi⟩, hj⟩, hv⟩ := hs
    obtain ⟨hy1, hy2, hm1, hm2, hd1, hd2⟩ := hv
    simp only at hy1 hy2 hm1 hm2 hd1 hd2
    have hd31 : 10 * dv i + dv j ≤ 31 :=
      le_trans hd2 (daysInMonth_le_31 _ _)
    unfold parseDate dateOfYYYYMMDD
    rw [heq]
    dsimp only
    rw [ha, hb, hc, he]
    simp only [Bool.and_self, if_true]
    have hmd : monthDay [f, g, i, j] = some (10 * dv f + dv g, 10 * dv i + dv j) := by
      unfold monthDay
      dsimp only
      rw [month2_of_valid f g hf hg hm1 hm2]
      dsimp only
      unfold dayAll
      dsimp only
      rw [day2_of_valid i j hi hj hd1 hd31]
    rw [hmd]
    dsimp only
    rw [if_pos ⟨hy1, hy2, hm1, hm2, hd1, hd2⟩]

/-- Whatever `strptime` accepts, the `datetime` constructor has validated. -/
theorem parseDate_valid {s : String} {d : Date} (h : parseDate s = some d) :
    validDate d := by
  unfold parseDate at h
  split at h
  case h_2 => exact absurd h (by simp)
  case h_1 c1 c2 c3 c4 rest heq =>
    split at h
    case isFalse => exact absurd h (by simp)
    case isTrue =>
      split at h
      case h_2 => exact absurd h (by simp)
      case h_1 md hmd =>
        dsimp only at h
        split at h
        case isFalse => exact absurd h (by simp)
        case isTrue hv =>
          cases h
          exact hv

/-- `parseRows` fails exactly when some row's date fails to parse. -/
theorem parseRows_none_iff (rows : List RawRow) :
    parseRows rows = none ↔ ∃ row ∈ rows, parseDate row.date = none := by
  induction rows with
  | nil => simp [parseRows]
  | cons row rest ih =>
    unfold parseRows
    cases hp : parseDate row.date with
    | none =>
      dsimp only
      simp only [List.mem_cons]
      exact ⟨fun _ => ⟨row, Or.inl rfl, hp⟩, fun _ => trivial⟩
    | some d =>
      cases hr : parseRows rest with
      | none =>
        dsimp only
        simp only [List.mem_cons]
        constructor
        · intro _
          obtain ⟨r, hr1, hr2⟩ := (ih).mp hr
          exact ⟨r, Or.inr hr1, hr2⟩
        · intro _
          trivial
      | some l =>
        dsimp only
        simp only [List.mem_cons]
        constructor
        · intro hc
          exact absurd hc (by simp)
        · rintro ⟨r, hmem, hnone⟩
          rcases hmem with rfl | hmem
          · rw [hp] at hnone
            exact absurd hnone (by simp)
          · have h2 := (ih).mpr ⟨r, hmem, hnone⟩
            rw [h2] at hr
            exact absurd hr (by simp)

/-- Every input row survives into the parsed list, paired with its date. -/
theorem parseRows_mem {rows : List RawRow} {l : List (Date × RawRow)}
    (h : parseRows rows = some l) {row : RawRow} (hrow : row ∈ rows) :
    ∃ dd, parseDate row.date = some dd ∧ (dd, row) ∈ l := by
  induction rows generalizing l with
  | nil => cases hrow
  | cons r rest ih =>
    unfold parseRows at h
    cases hp : parseDate r.date with
    | none => rw [hp] at h; exact absurd h (by simp)
    | some d =>
      rw [hp] at h
      cases hr : parseRows rest with
      | none => rw [hr] at h; exact absurd h (by simp)
      | some l2 =>
        rw [hr] at h
        cases h
        rcases List.mem_cons.mp hrow with rfl | hmem
        · exact ⟨d, hp, List.mem_cons_self _ _⟩
        · obtain ⟨dd, h1, h2⟩ := ih hr hmem
          exact ⟨dd, h1, List.mem_cons_of_mem _ h2⟩

/-- Every parsed pair comes from an input row, with its parsed date. -/
theorem parseRows_mem_rev {rows : List RawRow} {l : List (Date × RawRow)}
    (h : parseRows rows = some l) {p : Date × RawRow} (hp : p ∈ l) :
    p.2 ∈ rows ∧ parseDate p.2.date = some p.1 := by
  induction rows generalizing l with
  | nil =>
    unfold parseRows at h
    cases h
    cases hp
  | cons r rest ih =>
    unfold parseRows at h
    cases hpd : parseDate r.date with
    | none => rw [hpd] at h; exact absurd h (by simp)
    | some d =>
      rw [hpd] at h
      cases hr : parseRows rest with
      | none => rw [hr] at h; exact absurd h (by simp)
      | some l2 =>
        rw [hr] at h
        cases h
        rcases List.mem_cons.mp hp with rfl | hmem
        · exact ⟨List.mem_cons_self _ _, hpd⟩
        · obtain ⟨h1, h2⟩ := ih hr hmem
          exact ⟨List.mem_cons_of_mem _ h1, h2⟩

/-! ## Structure of successful cleaning -/

instance : IsTotal Date dateLE :=
  ⟨by intro a b; unfold dateLE; omega⟩

instance : IsTrans Date dateLE :=
  ⟨by intro a b c; unfold dateLE; omega⟩

instance : IsTotal DailyRecord recLE :=
  ⟨by intro a b; unfold recLE dateLE; omega⟩

instance : IsTrans DailyRecord recLE :=
  ⟨by intro a b c; unfold recLE dateLE; omega⟩

/-- Decomposition of a successful run of the cleaning cell. -/
theorem clean_ok {f : RawFrame} {out : List DailyRecord}
    (h : clean f = Except.ok out) :
    ∃ l, parseRows f.rows = some l
      ∧ out = List.insertionSort recLE (l.map mkRecord) := by
  unfold clean at h
  split at h
  case isFalse => cases h
  case isTrue =>
    cases hp : parseRows f.rows with
    | none => rw [hp] at h; cases h
    | some l => rw [hp] at h; cases h; exact ⟨l, rfl, rfl⟩

/-- Every record of a cleaned sequence is `mkRecord` of some raw row and
its parsed date. -/
theorem clean_mem {f : RawFrame} {out : List DailyRecord}
    (h : clean f = Except.ok out) {r : DailyRecord} (hr : r ∈ out) :
    ∃ p : Date × RawRow, p.2 ∈ f.rows ∧ parseDate p.2.date = some p.1
      ∧ r = mkRecord p := by
  obtain ⟨l, hl, rfl⟩ := clean_ok h
  rw [List.mem_insertionSort] at hr
  obtain ⟨p, hp, rfl⟩ := List.mem_map.mp hr
  obtain ⟨h1, h2⟩ := parseRows_mem_rev hl hp
  exact ⟨p, h1, h2, rfl⟩

/-! ## Series lookup lemmas -/

/-- A successful lookup means the label is among the keys. -/
theorem lookup_some_mem {α : Type} {s : List (Date × α)} {d : Date} {x : α}
    (h : lookup s d = some x) : d ∈ s.map Prod.fst := by
  induction s with
  | nil => cases h
  | cons p rest ih =>
    unfold lookup at h
    split at h
    case isTrue heq => simp [heq.symm]
    case isFalse heq => simpa using Or.inr (ih h)

/-- Looking a key up in a keyed `map` over a duplicate-free key list. -/
theorem lookup_pairs {α : Type} {l : List Date} (hl : l.Nodup) (f : Date → α)
    {d : Date} (hd : d ∈ l) :
    lookup (l.map fun k => (k, f k)) d = some (f d) := by
  induction l with
  | nil => cases hd
  | cons k rest ih =>
    simp only [List.map_cons]
    unfold lookup
    by_cases hk : k = d
    · subst hk
      rw [if_pos rfl]
    · rw [if_neg hk]
      have hd2 : d ∈ rest := by
        rcases List.mem_cons.mp hd with rfl | h2
        · exact absurd rfl hk
        · exact h2
      exact ih (List.Nodup.of_cons hl) hd2

/-- Membership in the union index. -/
theorem mem_unionKeys {a b : List (Date × ℚ)} {d : Date} :
    d ∈ unionKeys a b ↔ d ∈ keysOf a ∨ d ∈ keysOf b := by
  unfold unionKeys
  rw [(List.perm_insertionSort dateLE _).mem_iff]
  simp [List.mem_dedup, keysOf]

/-- The union index has no duplicate labels. -/
theorem nodup_unionKeys (a b : List (Date × ℚ)) : (unionKeys a b).Nodup :=
  (List.perm_insertionSort dateLE _).nodup_iff.mpr (List.nodup_dedup _)

/-! ## Reading a day label back -/

/-- Inverse of the C-locale `%b` month abbreviation. -/
def monthOfAbbrev (s : String) : Option Nat :=
  if s = "Jan" then some 1 else if s = "Feb" then some 2
  else if s = "Mar" then some 3 else if s = "Apr" then some 4
  else if s = "May" then some 5 else if s = "Jun" then some 6
  else if s = "Jul" then some 7 else if s = "Aug" then some 8
  else if s = "Sep" then some 9 else if s = "Oct" then some 10
  else if s = "Nov" then some 11 else if s = "Dec" then some 12
  else none

/-- Read the month/day pair back off a `"%b %d"` label. -/
def labelToMD (s : String) : Option (Nat × Nat) :=
  match s.data with
  | [a, b, c, sp, d1, d2] =>
    if sp = Char.ofNat 32 then
      match monthOfAbbrev (String.mk [a, b, c]) with
      | some m =>
        if isDig d1 && isDig d2 then some (m, 10 * dv d1 + dv d2) else none
      | none => none
    else none
  | _ => none

/-- The `"%b %d"` label determines the month/day pair: formatting then
reading back is the identity on in-range pairs. -/
theorem labelToMD_fmtMD :
    ∀ m < 12, ∀ d < 31, labelToMD (fmtMD (m+1) (d+1)) = some (m+1, d+1) := by
  decide

/-! ## Claims -/

/-- C1: for every cleaned daily record (when the estimator succeeds), the
estimator produces `infected = death / death_rate` and
`symptomatic = death / death_rate_s`, where the fixed constants are
`death_rate = 0.0066 = 66/10000` and `death_rate_s = 0.0138 = 138/10000`. -/
theorem C1_estimate_rates (r : DailyRecord) (e : EstimateRecord)
    (h : estimate r = some e) :
    e.infected = r.death / death_rate ∧ e.symptomatic = r.death / death_rate_s
      ∧ death_rate = 66 / 10000 ∧ death_rate_s = 138 / 10000 := by
  unfold estimate at h
  cases ha : addDays r.date delta with
  | none => rw [ha] at h; cases h
  | some d =>
    rw [ha] at h
    cases h
    refine ⟨rfl, rfl, ?_, ?_⟩
    · unfold death_rate; norm_num
    · unfold death_rate_s; norm_num

/-- Witness for C1 at the record (2020-03-17, positive 100, death 10). -/
theorem C1_estimate_rates_witness :
    estimate ⟨⟨2020, 3, 17⟩, "Mar 17", 100, 10⟩
        = some ⟨⟨2020, 3, 3⟩, 50000/33, 50000/69, "Mar 03"⟩
      ∧ ((50000 : ℚ)/33 = (10 : ℚ) / death_rate
          ∧ (50000 : ℚ)/69 = (10 : ℚ) / death_rate_s
          ∧ death_rate = 66 / 10000 ∧ death_rate_s = 138 / 10000) := by
  have h : estimate ⟨⟨2020, 3, 17⟩, "Mar 17", 100, 10⟩
      = some ⟨⟨2020, 3, 3⟩, 50000/33, 50000/69, "Mar 03"⟩ := by
    unfold estimate
    rw [show addDays ⟨2020, 3, 17⟩ delta = some ⟨2020, 3, 3⟩ from by decide]
    norm_num [death_rate, death_rate_s]
    decide
  exact ⟨h, C1_estimate_rates _ _ h⟩

/-- C2: the estimator's output date is exactly 14 calendar days before the
record's date (its ordinal is the record's ordinal minus 14, with no
clamping), and it is a genuine calendar date. -/
theorem C2_estimate_date_shift (r : DailyRecord) (e : EstimateRecord)
    (h : estimate r = some e) :
    toOrd e.date + 14 = toOrd r.date ∧ validDate e.date := by
  unfold estimate at h
  cases ha : addDays r.date delta with
  | none => rw [ha] at h; cases h
  | some d =>
    rw [ha] at h
    cases h
    unfold addDays at ha
    dsimp only at ha
    split at ha
    case isFalse => cases ha
    case isTrue hc =>
      cases ha
      dsimp only
      unfold delta at hc
      have h1 : 1 ≤ ((toOrd r.date : Int) + (-14)).toNat := by omega
      have h2 : ((toOrd r.date : Int) + (-14)).toNat ≤ 3652059 := by omega
      obtain ⟨ho, hv⟩ := toOrd_fromOrd _ h1 h2
      refine ⟨?_, hv⟩
      unfold delta
      rw [ho]
      omega

set_option maxRecDepth 8000 in
set_option maxHeartbeats 1000000 in
/-- Witness for C2 at the record dated 2020-03-31: the shifted date
2020-03-17 precedes it by exactly 14 days. -/
theorem C2_estimate_date_shift_witness :
    estimate ⟨⟨2020, 3, 31⟩, "Mar 31", 0, 0⟩
        = some ⟨⟨2020, 3, 17⟩, 0, 0, "Mar 17"⟩
      ∧ (toOrd ⟨2020, 3, 17⟩ + 14 = toOrd ⟨2020, 3, 31⟩
          ∧ validDate ⟨2020, 3, 17⟩) := by
  have h : estimate ⟨⟨2020, 3, 31⟩, "Mar 31", 0, 0⟩
      = some ⟨⟨2020, 3, 17⟩, 0, 0, "Mar 17"⟩ := by
    unfold estimate
    rw [show addDays ⟨2020, 3, 31⟩ delta = some ⟨2020, 3, 17⟩ from by decide]
    norm_num [death_rate, death_rate_s]
    decide
  have h2 := C2_estimate_date_shift _ _ h
  exact ⟨h, h2.1, h2.2⟩

/-- C8: the estimator is linear in the death count: doubling `death`
doubles both `infected` and `symptomatic`. -/
theorem C8_estimate_linear (r : DailyRecord) (e : EstimateRecord)
    (h : estimate r = some e) :
    ∃ e2, estimate { r with death := 2 * r.death } = some e2
      ∧ e2.infected = 2 * e.infected ∧ e2.symptomatic = 2 * e.symptomatic := by
  unfold estimate at h ⊢
  cases ha : addDays r.date delta with
  | none => rw [ha] at h; cases h
  | some d =>
    rw [ha] at h
    cases h
    refine ⟨_, rfl, ?_, ?_⟩
    · exact mul_div_assoc 2 r.death death_rate
    · exact mul_div_assoc 2 r.death death_rate_s

/-- Witness for C8 at the record dated 2020-04-01 with death 30. -/
theorem C8_estimate_linear_witness :
    estimate ⟨⟨2020, 4, 1⟩, "Apr 01", 200, 30⟩
        = some ⟨⟨2020, 3, 18⟩, 50000/11, 50000/23, "Mar 18"⟩
      ∧ ∃ e2, estimate ⟨⟨2020, 4, 1⟩, "Apr 01", 200, 2 * 30⟩ = some e2
          ∧ e2.infected = 2 * ((50000 : ℚ)/11)
          ∧ e2.symptomatic = 2 * ((50000 : ℚ)/23) := by
  have h : estimate ⟨⟨2020, 4, 1⟩, "Apr 01", 200, 30⟩
      = some ⟨⟨2020, 3, 18⟩, 50000/11, 50000/23, "Mar 18"⟩ := by
    unfold estimate
    rw [show addDays ⟨2020, 4, 1⟩ delta = some ⟨2020, 3, 18⟩ from by decide]
    norm_num [death_rate, death_rate_s]
    decide
  exact ⟨h, C8_estimate_linear _ _ h⟩

/-- C4: after cleaning, the records are sorted ascending by date: every
adjacent pair satisfies `dateLE`, whatever the order of the raw rows. -/
theorem C4_clean_sorted (f : RawFrame) (out : List DailyRecord)
    (h : clean f = Except.ok out) :
    out.Chain' fun a b => dateLE a.date b.date := by
  obtain ⟨l, hl, rfl⟩ := clean_ok h
  exact List.Chain'.imp (fun a b hab => hab)
    (List.Pairwise.chain' (List.sorted_insertionSort recLE (l.map mkRecord)))

/-- Witness for C4 on a two-row frame given out of order. -/
theorem C4_clean_sorted_witness :
    clean ⟨true, true, [⟨"20200317", some 100, some 10⟩,
                        ⟨"20200315", some 50, some 5⟩]⟩
        = Except.ok [⟨⟨2020, 3, 15⟩, "Mar 15", 50, 5⟩,
                     ⟨⟨2020, 3, 17⟩, "Mar 17", 100, 10⟩]
      ∧ List.Chain' (fun a b => dateLE a.date b.date)
          [(⟨⟨2020, 3, 15⟩, "Mar 15", 50, 5⟩ : DailyRecord),
           ⟨⟨2020, 3, 17⟩, "Mar 17", 100, 10⟩] := by
  have h : clean ⟨true, true, [⟨"20200317", some 100, some 10⟩,
                               ⟨"20200315", some 50, some 5⟩]⟩
      = Except.ok [⟨⟨2020, 3, 15⟩, "Mar 15", 50, 5⟩,
                   ⟨⟨2020, 3, 17⟩, "Mar 17", 100, 10⟩] := by rfl
  exact ⟨h, C4_clean_sorted _ _ h⟩

/-- C5: a raw row whose `positive` or `death` is null yields a cleaned
record with that field equal to 0 (and the record is the row's image under
the cleaning map, present in the output). -/
theorem C5_fillna_zero (f : RawFrame) (out : List DailyRecord)
    (h : clean f = Except.ok out) (row : RawRow) (hrow : row ∈ f.rows) :
    ∃ rec ∈ out,
      (∃ dd, parseDate row.date = some dd ∧ rec = mkRecord (dd, row))
      ∧ (row.positive = none → rec.positive = 0)
      ∧ (row.death = none → rec.death = 0) := by
  obtain ⟨l, hl, rfl⟩ := clean_ok h
  obtain ⟨dd, h1, h2⟩ := parseRows_mem hl hrow
  refine ⟨mkRecord (dd, row), ?_, ⟨dd, h1, rfl⟩, ?_, ?_⟩
  · rw [List.mem_insertionSort]
    exact List.mem_map.mpr ⟨(dd, row), h2, rfl⟩
  · intro hp
    unfold mkRecord
    dsimp only
    rw [hp]
    rfl
  · intro hp
    unfold mkRecord
    dsimp only
    rw [hp]
    rfl

/-- Witness for C5 on a frame whose second row has null counts. -/
theorem C5_fillna_zero_witness :
    clean ⟨true, true, [⟨"20200317", some 100, some 10⟩,
                        ⟨"20200315", none, none⟩]⟩
        = Except.ok [⟨⟨2020, 3, 15⟩, "Mar 15", 0, 0⟩,
                     ⟨⟨2020, 3, 17⟩, "Mar 17", 100, 10⟩]
      ∧ (⟨"20200315", none, none⟩ : RawRow)
          ∈ [(⟨"20200317", some 100, some 10⟩ : RawRow), ⟨"20200315", none, none⟩]
      ∧ ∃ rec ∈ [(⟨⟨2020, 3, 15⟩, "Mar 15", 0, 0⟩ : DailyRecord),
                 ⟨⟨2020, 3, 17⟩, "Mar 17", 100, 10⟩],
          (∃ dd, parseDate "20200315" = some dd
            ∧ rec = mkRecord (dd, ⟨"20200315", none, none⟩))
          ∧ ((none : Option ℚ) = none → rec.positive = 0)
          ∧ ((none : Option ℚ) = none → rec.death = 0) := by
  have h : clean ⟨true, true, [⟨"20200317", some 100, some 10⟩,
                               ⟨"20200315", none, none⟩]⟩
      = Except.ok [⟨⟨2020, 3, 15⟩, "Mar 15", 0, 0⟩,
                   ⟨⟨2020, 3, 17⟩, "Mar 17", 100, 10⟩] := by rfl
  exact ⟨h, by simp, C5_fillna_zero _ _ h ⟨"20200315", none, none⟩ (by simp)⟩

/-- C7: each cleaned record's day label is the month abbreviation, a
space, and the zero-padded day of month of its date, and reading the
label back recovers exactly that month/day pair. -/
theorem C7_day_label_roundtrip (f : RawFrame) (out : List DailyRecord)
    (h : clean f = Except.ok out) (r : DailyRecord) (hr : r ∈ out) :
    r.day = monthAbbrev r.date.month ++ String.mk [Char.ofNat 32] ++ pad2 r.date.day
      ∧ labelToMD r.day = some (r.date.month, r.date.day) := by
  obtain ⟨p, hmem, hparse, rfl⟩ := clean_mem h hr
  obtain ⟨_, _, hm1, hm2, hd1, hd2⟩ := parseDate_valid hparse
  have hd31 : p.1.day ≤ 31 := le_trans hd2 (daysInMonth_le_31 _ _)
  constructor
  · rfl
  · have hrt := labelToMD_fmtMD (p.1.month - 1) (by omega) (p.1.day - 1) (by omega)
    rw [show p.1.month - 1 + 1 = p.1.month from by omega,
        show p.1.day - 1 + 1 = p.1.day from by omega] at hrt
    exact hrt

/-- Witness for C7 on the record cleaned from raw date 20200305. -/
theorem C7_day_label_roundtrip_witness :
    clean ⟨true, true, [⟨"20200305", some 7, some 1⟩]⟩
        = Except.ok [⟨⟨2020, 3, 5⟩, "Mar 05", 7, 1⟩]
      ∧ ((⟨⟨2020, 3, 5⟩, "Mar 05", 7, 1⟩ : DailyRecord).day
            = monthAbbrev 3 ++ String.mk [Char.ofNat 32] ++ pad2 5
          ∧ labelToMD "Mar 05" = some (3, 5)) := by
  have h : clean ⟨true, true, [⟨"20200305", some 7, some 1⟩]⟩
      = Except.ok [⟨⟨2020, 3, 5⟩, "Mar 05", 7, 1⟩] := by rfl
  exact ⟨h, C7_day_label_roundtrip _ _ h _ (by simp)⟩

/-- C3 counterexample: cleaning an already-cleaned sequence does not
yield the sequence back, it fails: the cleaned table no longer has the
`hash`/`dateChecked` columns, so the drop step raises `KeyError`; and the
cleaned dates re-render as ISO `YYYY-MM-DD`, which `strptime("%Y%m%d")`
rejects, so the date step would fail too. -/
theorem C3_reclean_counterexample :
    clean ⟨true, true, [⟨"20200317", some 100, some 10⟩]⟩
        = Except.ok [⟨⟨2020, 3, 17⟩, "Mar 17", 100, 10⟩]
      ∧ clean (toRawFrame [⟨⟨2020, 3, 17⟩, "Mar 17", 100, 10⟩])
          = Except.error CleanError.keyError
      ∧ parseDate "2020-03-17" = none :=
  ⟨by rfl, by rfl, by rfl⟩

/-- C3 amended: re-applying the cleaning transform to cleaned output
fails (`KeyError` at the column drop; the ISO-rendered dates would not
re-parse either), but the reorder-and-derive core is idempotent on
cleaned output: re-sorting changes nothing, and re-deriving every day
label changes nothing. -/
theorem C3_clean_idempotent_amended (f : RawFrame) (out : List DailyRecord)
    (h : clean f = Except.ok out) :
    List.insertionSort recLE out = out
      ∧ out.map (fun r => { r with day := fmtDay r.date }) = out
      ∧ clean (toRawFrame out) = Except.error CleanError.keyError := by
  refine ⟨?_, ?_, ?_⟩
  · obtain ⟨l, hl, rfl⟩ := clean_ok h
    exact List.Sorted.insertionSort_eq (List.sorted_insertionSort recLE _)
  · have hall : ∀ r ∈ out, ({ r with day := fmtDay r.date } : DailyRecord) = r := by
      intro r hr
      obtain ⟨p, hmem, hparse, rfl⟩ := clean_mem h hr
      rfl
    calc out.map (fun r => { r with day := fmtDay r.date })
        = out.map id := List.map_congr_left hall
      _ = out := List.map_id out
  · rfl

/-- Witness for the amended C3 on a one-row frame. -/
theorem C3_clean_idempotent_amended_witness :
    clean ⟨true, true, [⟨"20200316", some 3, some 2⟩]⟩
        = Except.ok [⟨⟨2020, 3, 16⟩, "Mar 16", 3, 2⟩]
      ∧ (List.insertionSort recLE [(⟨⟨2020, 3, 16⟩, "Mar 16", 3, 2⟩ : DailyRecord)]
            = [⟨⟨2020, 3, 16⟩, "Mar 16", 3, 2⟩]
        ∧ [(⟨⟨2020, 3, 16⟩, "Mar 16", 3, 2⟩ : DailyRecord)].map
              (fun r => { r with day := fmtDay r.date })
            = [⟨⟨2020, 3, 16⟩, "Mar 16", 3, 2⟩]
        ∧ clean (toRawFrame [⟨⟨2020, 3, 16⟩, "Mar 16", 3, 2⟩])
            = Except.error CleanError.keyError) := by
  have h : clean ⟨true, true, [⟨"20200316", some 3, some 2⟩]⟩
      = Except.ok [⟨⟨2020, 3, 16⟩, "Mar 16", 3, 2⟩] := by rfl
  exact ⟨h, C3_clean_idempotent_amended _ _ h⟩

/-- C6 counterexample: the seven-character string "2020317" does not
match the exact 8-digit `YYYYMMDD` pattern, yet `strptime("%Y%m%d")`
accepts it (year 2020, month 3, day 17) and cleaning succeeds instead of
failing with a date-format error. -/
theorem C6_dateformat_counterexample :
    isYYYYMMDD "2020317" = false
      ∧ parseDate "2020317" = some ⟨2020, 3, 17⟩
      ∧ clean ⟨true, true, [⟨"2020317", some 100, some 10⟩]⟩
          = Except.ok [⟨⟨2020, 3, 17⟩, "Mar 17", 100, 10⟩] :=
  ⟨by rfl, by rfl, by rfl⟩

/-- C6 amended: cleaning (of a frame that still has its provenance
columns) fails with the date-format error exactly when some row's date
string is rejected by the `%Y%m%d` parse — a strictly larger language
than the 8-digit `YYYYMMDD` pattern, since month and day may also appear
with one digit — and every string that does match the exact 8-digit
`YYYYMMDD` pattern parses to the calendar date it denotes. -/
theorem C6_dateformat_amended :
    (∀ f : RawFrame, f.hasHash = true → f.hasDateChecked = true →
      (clean f = Except.error CleanError.dateFormatError
        ↔ ∃ row ∈ f.rows, parseDate row.date = none))
    ∧ (∀ s, isYYYYMMDD s = true → parseDate s = some (dateOfYYYYMMDD s)) := by
  constructor
  · intro f h1 h2
    unfold clean
    rw [h1, h2]
    rw [show (true && true) = true from rfl, if_pos rfl]
    cases hp : parseRows f.rows with
    | none =>
      dsimp only
      exact ⟨fun _ => (parseRows_none_iff f.rows).mp hp, fun _ => rfl⟩
    | some l =>
      dsimp only
      constructor
      · intro hc
        cases hc
      · intro hex
        have h3 := (parseRows_none_iff f.rows).mpr hex
        rw [h3] at hp
        cases hp
  · exact parseDate_of_isYYYYMMDD

/-- Witness for the amended C6: an ISO-formatted date makes cleaning fail
with the date-format error, and a well-formed 8-digit date parses. -/
theorem C6_dateformat_amended_witness :
    clean ⟨true, true, [⟨"2020-03-17", some 1, some 1⟩]⟩
        = Except.error CleanError.dateFormatError
      ∧ parseDate "20200317" = some (dateOfYYYYMMDD "20200317") := by
  constructor
  · exact (C6_dateformat_amended.1 ⟨true, true, [⟨"2020-03-17", some 1, some 1⟩]⟩
      rfl rfl).mpr ⟨⟨"2020-03-17", some 1, some 1⟩, by simp, by rfl⟩
  · exact C6_dateformat_amended.2 "20200317" (by rfl)

/-- C9: the differencing step: for every date present in both the
estimated-infections series and the reported-positives series, the
aligned subtraction has an entry with value `infected - positive` there. -/
theorem C9_diff_both_present (a b : List (Date × ℚ)) (d : Date) (x y : ℚ)
    (ha : lookup a d = some x) (hb : lookup b d = some y) :
    lookup (seriesSub a b) d = some (some (x - y)) := by
  unfold seriesSub
  have h3 := lookup_pairs (nodup_unionKeys a b)
    (fun k => match lookup a k, lookup b k with
              | some u, some v => some (u - v)
              | _, _ => none)
    (mem_unionKeys.mpr (Or.inl (lookup_some_mem ha)))
  dsimp only at h3
  rw [ha, hb] at h3
  exact h3

/-- Witness for C9 on two one-point-overlap series. -/
theorem C9_diff_both_present_witness :
    lookup [(⟨2020, 3, 3⟩, (10 : ℚ))] ⟨2020, 3, 3⟩ = some 10
      ∧ lookup [(⟨2020, 3, 3⟩, (4 : ℚ)), (⟨2020, 3, 5⟩, 7)] ⟨2020, 3, 3⟩ = some 4
      ∧ lookup (seriesSub [(⟨2020, 3, 3⟩, 10)]
          [(⟨2020, 3, 3⟩, 4), (⟨2020, 3, 5⟩, 7)]) ⟨2020, 3, 3⟩
        = some (some (10 - 4)) :=
  ⟨by rfl, by rfl, C9_diff_both_present _ _ _ _ _ (by rfl) (by rfl)⟩

/-- C10: the differencing step aligns with an outer join: a date present
in exactly one of the two series still gets an entry in the diff series,
with value NaN (`none`), rather than being dropped or zero-filled. -/
theorem C10_diff_outer_nan (a b : List (Date × ℚ)) (d : Date)
    (h : (lookup a d).isSome ≠ (lookup b d).isSome) :
    lookup (seriesSub a b) d = some none := by
  unfold seriesSub
  cases hla : lookup a d with
  | none =>
    cases hlb : lookup b d with
    | none => rw [hla, hlb] at h; exact absurd rfl h
    | some y =>
      have h3 := lookup_pairs (nodup_unionKeys a b)
        (fun k => match lookup a k, lookup b k with
                  | some u, some v => some (u - v)
                  | _, _ => none)
        (mem_unionKeys.mpr (Or.inr (lookup_some_mem hlb)))
      dsimp only at h3
      rw [hla, hlb] at h3
      exact h3
  | some x =>
    have h3 := lookup_pairs (nodup_unionKeys a b)
      (fun k => match lookup a k, lookup b k with
                | some u, some v => some (u - v)
                | _, _ => none)
      (mem_unionKeys.mpr (Or.inl (lookup_some_mem hla)))
    dsimp only at h3
    rw [hla] at h3
    cases hlb : lookup b d with
    | none => rw [hlb] at h3; exact h3
    | some y => rw [hla, hlb] at h; exact absurd rfl h

/-- Witness for C10 at a date present only in the second series. -/
theorem C10_diff_outer_nan_witness :
    ((lookup [(⟨2020, 3, 3⟩, (10 : ℚ))] ⟨2020, 3, 5⟩).isSome
        ≠ (lookup [(⟨2020, 3, 3⟩, (4 : ℚ)), (⟨2020, 3, 5⟩, 7)] ⟨2020, 3, 5⟩).isSome)
      ∧ lookup (seriesSub [(⟨2020, 3, 3⟩, 10)]
          [(⟨2020, 3, 3⟩, 4), (⟨2020, 3, 5⟩, 7)]) ⟨2020, 3, 5⟩
        = some none :=
  ⟨by decide, C10_diff_outer_nan _ _ _ (by decide)⟩
